import Mathlib

set_option maxRecDepth 8000

/-!
Shallow embedding of `.github/scripts/validate_workflow_inputs.py`.

Python strings are embedded as `List Char`; Python dicts (unique keys,
insertion order) as association lists with a first-match lookup; the three
pure validation functions (`validate_required_inputs`,
`validate_environment_consistency`, and the result shaping of `main`) are
translated statement by statement.  Python truthiness of a string is
non-emptiness of the character list.
-/

namespace ValidateWorkflowInputs

/-- Embedded Python string. -/
abbrev Str := List Char

/-- `s.lower()` — Python lowercases character by character. -/
def lowerStr (s : Str) : Str := s.map Char.toLower

/-- `needle in hay` — Python substring membership. -/
def containsSubstr (needle : Str) : Str → Bool
  | [] => needle.isEmpty
  | c :: rest => needle.isPrefixOf (c :: rest) || containsSubstr needle rest

/-- The apostrophe character used inside the Python f-string messages. -/
def squote : Char := Char.ofNat 39

/-- One entry of the `defined_inputs` dict: `required` models the truthiness
of `input_def.get('required', False)` and `hasDefault` models
`'default' in input_def`. -/
structure InputDefinition where
  required : Bool
  hasDefault : Bool
deriving DecidableEq, Repr

/-- The `defined_inputs` dict, in iteration order. -/
abbrev Definitions := List (Str × InputDefinition)

/-- The `provided_inputs` dict. -/
abbrev Provided := List (Str × Str)

/-- Python dict lookup `m[k]` / `k in m` (first match; dict keys are unique). -/
def dictGet (m : Provided) (k : Str) : Option Str :=
  match m with
  | [] => none
  | (k', v) :: rest => if k' = k then some v else dictGet rest k

/-- `input_name not in provided_inputs or not provided_inputs[input_name]`. -/
def providedMissing (provided_inputs : Provided) (input_name : Str) : Bool :=
  match dictGet provided_inputs input_name with
  | none => true
  | some v => v.isEmpty

/-- `validate_required_inputs`: iterate over `defined_inputs.items()` and
append `input_name` when it is required, lacks a default, and is absent or
empty in `provided_inputs`. -/
def validate_required_inputs : Definitions → Provided → List Str
  | [], _ => []
  | (input_name, input_def) :: rest, provided_inputs =>
    if input_def.required && !input_def.hasDefault
        && providedMissing provided_inputs input_name then
      input_name :: validate_required_inputs rest provided_inputs
    else
      validate_required_inputs rest provided_inputs

/-- `all_environments = ["prod", "production", "staging", "stage", "dev", "development"]`. -/
def all_environments : List Str :=
  ["prod".data, "production".data, "staging".data, "stage".data,
   "dev".data, "development".data]

/-- `[env for env in all_environments if not env.startswith(environment_lowercase)]`. -/
def forbidden_environments (environment_lowercase : Str) : List Str :=
  all_environments.filter (fun env => !(environment_lowercase.isPrefixOf env))

/-- `', '.join(xs)`. -/
def joinCommaSpace : List Str → Str
  | [] => []
  | [x] => x
  | x :: y :: rest => x ++ ", ".data ++ joinCommaSpace (y :: rest)

/-- The f-string `detail` built for a forbidden-token violation. -/
def forbiddenDetail (forbidden_env environment_lowercase : Str)
    (forbidden : List Str) : Str :=
  "contains ".data ++ [squote] ++ forbidden_env ++ [squote]
    ++ " but environment is set to ".data ++ [squote] ++ environment_lowercase
    ++ [squote] ++ ". When environment is ".data ++ [squote]
    ++ environment_lowercase ++ [squote]
    ++ ", values should not contain other environment names like ".data
    ++ joinCommaSpace forbidden ++ ".".data

/-- The fixed `detail` built for the dash/underscore violation on `monitor_name`. -/
def punctDetail : Str :=
  "contains dashes (-) or underscores (_), which are not allowed. Use spaces instead, like ".data
    ++ [squote] ++ "staging monitor report".data ++ [squote] ++ ".".data

/-- The inner `for forbidden_env in forbidden_environments: ... break` loop:
first forbidden token occurring in `field_value`, in list order. -/
def firstForbidden (forbidden : List Str) (field_value : Str) : Option Str :=
  match forbidden with
  | [] => none
  | fe :: rest =>
    if containsSubstr fe field_value then some fe
    else firstForbidden rest field_value

/-- `fields_to_check = ['monitor_name', 'app_url', 'k8_ingress_url']`. -/
def fields_to_check : List Str :=
  ["monitor_name".data, "app_url".data, "k8_ingress_url".data]

/-- One iteration of the `for field in fields_to_check` loop body: the
violations this field appends. -/
def checkField (environment_lowercase : Str) (forbidden : List Str)
    (provided_inputs : Provided) (field : Str) : List (Str × Str) :=
  match dictGet provided_inputs field with
  | none => []
  | some raw =>
    if raw.isEmpty then []
    else
      let field_value := lowerStr raw
      (match firstForbidden forbidden field_value with
       | some fe => [(field, forbiddenDetail fe environment_lowercase forbidden)]
       | none => [])
      ++ (if (field == "monitor_name".data)
             && (field_value.contains (Char.ofNat 45)
                 || field_value.contains (Char.ofNat 95)) then
            [(field, punctDetail)]
          else [])

/-- `validate_environment_consistency`. -/
def validate_environment_consistency (environment : Str)
    (provided_inputs : Provided) : List (Str × Str) :=
  let environment_lowercase := lowerStr environment
  let forbidden := forbidden_environments environment_lowercase
  fields_to_check.foldl
    (fun acc field => acc ++ checkField environment_lowercase forbidden provided_inputs field)
    []

/-- The spec's `ValidationResult` record produced by `main`'s result shaping. -/
structure ValidationResult where
  missingRequired : List Str
  inconsistencies : List (Str × Str)
  ok : Bool
deriving DecidableEq, Repr

/-- `main`'s verdict aggregation: `ok` mirrors
`if missing_inputs or inconsistent_inputs: sys.exit(1) else: sys.exit(0)`. -/
def aggregate (missing_inputs : List Str)
    (inconsistent_inputs : List (Str × Str)) : ValidationResult :=
  { missingRequired := missing_inputs
    inconsistencies := inconsistent_inputs
    ok := !(!missing_inputs.isEmpty || !inconsistent_inputs.isEmpty) }

/-- The pure core of `main`: run both validators, the consistency one only
when `'environment' in provided_inputs and provided_inputs['environment']`. -/
def run_validation (defined_inputs : Definitions)
    (provided_inputs : Provided) : ValidationResult :=
  let missing_inputs := validate_required_inputs defined_inputs provided_inputs
  let inconsistent_inputs :=
    match dictGet provided_inputs ("environment".data) with
    | none => []
    | some v =>
      if v.isEmpty then []
      else validate_environment_consistency v provided_inputs
  aggregate missing_inputs inconsistent_inputs

/-- Reference form of the per-field forbidden-token rule, following the
spec's words: one violation naming the first forbidden token (in listed
order) occurring in the field value, none otherwise. -/
def tokenViolationSpec (environment_lowercase : Str) (forbidden : List Str)
    (field field_value : Str) : List (Str × Str) :=
  match forbidden.find? (fun fe => containsSubstr fe field_value) with
  | some fe => [(field, forbiddenDetail fe environment_lowercase forbidden)]
  | none => []

/-- Reference form of the punctuation rule, following the spec's words: an
independent violation when the field is `monitor_name` and its value has a
dash or underscore. -/
def punctViolationSpec (field field_value : Str) : List (Str × Str) :=
  if (field == "monitor_name".data)
      && (field_value.contains (Char.ofNat 45)
          || field_value.contains (Char.ofNat 95)) then
    [(field, punctDetail)]
  else []

/-! ### Helper lemmas -/

/-- `List.isPrefixOf` decides the prefix relation on embedded strings. -/
theorem isPrefixOf_true_iff : ∀ (l₁ l₂ : Str), l₁.isPrefixOf l₂ = true ↔ l₁ <+: l₂
  | [], l₂ => by simp [List.isPrefixOf]
  | a :: as, [] => by simp [List.isPrefixOf]
  | a :: as, b :: bs => by
    simp only [List.isPrefixOf, Bool.and_eq_true, beq_iff_eq, List.cons_prefix_cons]
    exact and_congr Iff.rfl (isPrefixOf_true_iff as bs)

/-- `containsSubstr` decides Python substring membership. -/
theorem containsSubstr_true_iff (needle : Str) :
    ∀ (hay : Str), containsSubstr needle hay = true ↔ needle <:+: hay
  | [] => by
    simp only [containsSubstr, List.isEmpty_eq_true, List.infix_nil]
  | c :: rest => by
    simp only [containsSubstr, Bool.or_eq_true, isPrefixOf_true_iff,
      containsSubstr_true_iff needle rest, List.infix_cons_iff]

/-- The `break`-terminated inner loop is `List.find?` on the forbidden list. -/
theorem firstForbidden_eq_find (v : Str) :
    ∀ (forbidden : List Str),
      firstForbidden forbidden v = forbidden.find? (fun fe => containsSubstr fe v)
  | [] => rfl
  | fe :: rest => by
    by_cases h : containsSubstr fe v = true
    · simp [firstForbidden, h]
    · simp [firstForbidden, h, firstForbidden_eq_find v rest]

/-- The field loop decomposes into the three per-field contributions in order. -/
theorem validate_env_eq_append (environment : Str) (provided_inputs : Provided) :
    validate_environment_consistency environment provided_inputs =
      checkField (lowerStr environment) (forbidden_environments (lowerStr environment))
          provided_inputs ("monitor_name".data)
        ++ checkField (lowerStr environment) (forbidden_environments (lowerStr environment))
          provided_inputs ("app_url".data)
        ++ checkField (lowerStr environment) (forbidden_environments (lowerStr environment))
          provided_inputs ("k8_ingress_url".data) := by
  simp [validate_environment_consistency, fields_to_check, List.foldl, List.append_assoc]

/-- `providedMissing` holds exactly when the name is absent or maps to `""`. -/
theorem providedMissing_true_iff (provided_inputs : Provided) (input_name : Str) :
    providedMissing provided_inputs input_name = true ↔
      (dictGet provided_inputs input_name = none
        ∨ dictGet provided_inputs input_name = some []) := by
  unfold providedMissing
  cases h : dictGet provided_inputs input_name with
  | none => simp
  | some v => simp [List.isEmpty_eq_true]

/-- The presence validator is a filter-then-project over the definitions. -/
theorem validate_required_eq_filter (provided_inputs : Provided) :
    ∀ (defined_inputs : Definitions),
      validate_required_inputs defined_inputs provided_inputs =
        (defined_inputs.filter fun nd =>
            nd.2.required && !nd.2.hasDefault && providedMissing provided_inputs nd.1).map
          Prod.fst
  | [] => rfl
  | (input_name, input_def) :: rest => by
    by_cases h : (input_def.required && !input_def.hasDefault
        && providedMissing provided_inputs input_name) = true
    · simp [validate_required_inputs, h, List.filter_cons,
        validate_required_eq_filter provided_inputs rest]
    · simp [validate_required_inputs, h, List.filter_cons,
        validate_required_eq_filter provided_inputs rest]

/-- Substring containment is monotone along the prefix relation of needles. -/
theorem containsSubstr_of_prefixed {a b v : Str} (hab : a <+: b)
    (h : containsSubstr b v = true) : containsSubstr a v = true := by
  rw [containsSubstr_true_iff] at h ⊢
  obtain ⟨t, ht⟩ := hab
  obtain ⟨s, u, hu⟩ := h
  exact ⟨s, t ++ u, by rw [← hu, ← ht]; simp [List.append_assoc]⟩

/-- A forbidden-token hit on a present, non-empty field is one of the
violations that field appends. -/
theorem mem_checkField_token (e : Str) (f : List Str) (p : Provided)
    {field v fe : Str} (h1 : dictGet p field = some v) (h2 : v ≠ [])
    (h3 : firstForbidden f (lowerStr v) = some fe) :
    (field, forbiddenDetail fe e f) ∈ checkField e f p field := by
  unfold checkField
  rw [h1]
  simp only [List.isEmpty_eq_true, if_neg h2, h3]
  exact List.mem_append_left _ (List.mem_singleton.mpr rfl)

/-- A dash/underscore in a present, non-empty `monitor_name` always appends
the punctuation violation. -/
theorem mem_checkField_punct (e : Str) (f : List Str) (p : Provided)
    {v : Str} (h1 : dictGet p ("monitor_name".data) = some v) (h2 : v ≠ [])
    (h3 : ((lowerStr v).contains (Char.ofNat 45)
      || (lowerStr v).contains (Char.ofNat 95)) = true) :
    ("monitor_name".data, punctDetail) ∈ checkField e f p ("monitor_name".data) := by
  unfold checkField
  rw [h1]
  simp only [List.isEmpty_eq_true, if_neg h2]
  refine List.mem_append_right _ ?_
  rw [if_pos (by simpa using h3)]
  exact List.mem_singleton.mpr rfl

/-- Every violation a watched field appends appears in the validator output. -/
theorem mem_validate_of_mem_checkField {environment : Str} {provided_inputs : Provided}
    {field : Str} {x : Str × Str} (hf : field ∈ fields_to_check)
    (hx : x ∈ checkField (lowerStr environment)
      (forbidden_environments (lowerStr environment)) provided_inputs field) :
    x ∈ validate_environment_consistency environment provided_inputs := by
  rw [validate_env_eq_append]
  simp only [fields_to_check, List.mem_cons, List.mem_singleton,
    List.not_mem_nil, or_false] at hf
  rcases hf with rfl | rfl | rfl
  · exact List.mem_append_left _ (List.mem_append_left _ hx)
  · exact List.mem_append_left _ (List.mem_append_right _ hx)
  · exact List.mem_append_right _ hx

/-- The `ok` flag of the aggregate record equals the two emptiness checks. -/
theorem aggregate_ok_eq (missing_inputs : List Str)
    (inconsistent_inputs : List (Str × Str)) :
    (aggregate missing_inputs inconsistent_inputs).ok =
      (missing_inputs.isEmpty && inconsistent_inputs.isEmpty) := by
  cases hm : missing_inputs.isEmpty <;> cases hi : inconsistent_inputs.isEmpty <;>
    simp [aggregate, hm, hi]

/-! ### Claim theorems -/

/-- Claim C1: a name appears in the presence validator output iff its
definition is required with no default and it is absent from `provided` or
mapped to the empty string; the output order follows the iteration order of
the definitions. -/
theorem c1_presence_validator (defined_inputs : Definitions)
    (provided_inputs : Provided) :
    (∀ name, name ∈ validate_required_inputs defined_inputs provided_inputs ↔
      ∃ d, (name, d) ∈ defined_inputs ∧ d.required = true ∧ d.hasDefault = false ∧
        (dictGet provided_inputs name = none ∨ dictGet provided_inputs name = some []))
    ∧ List.Sublist (validate_required_inputs defined_inputs provided_inputs)
        (defined_inputs.map Prod.fst) := by
  constructor
  · intro name
    rw [validate_required_eq_filter]
    simp only [List.mem_map, List.mem_filter]
    constructor
    · rintro ⟨⟨n, d⟩, ⟨hmem, hcond⟩, rfl⟩
      simp only [Bool.and_eq_true, Bool.not_eq_true'] at hcond
      exact ⟨d, hmem, hcond.1.1, hcond.1.2, (providedMissing_true_iff _ _).mp hcond.2⟩
    · rintro ⟨d, hmem, hr, hd, hp⟩
      exact ⟨(name, d), ⟨hmem,
        by simp [hr, hd, (providedMissing_true_iff _ _).mpr hp]⟩, rfl⟩
  · rw [validate_required_eq_filter]
    exact (List.filter_sublist _).map Prod.fst

/-- Claim C2: the forbidden set is exactly the universe tokens not having the
lowercased environment as a prefix; in particular environment `prod` accepts
an `app_url` containing `production`. -/
theorem c2_forbidden_token_universe :
    (∀ (environment t : Str),
      t ∈ forbidden_environments (lowerStr environment) ↔
        t ∈ all_environments ∧ ¬ (lowerStr environment <+: t))
    ∧ validate_environment_consistency "prod".data
        [("app_url".data, "https://production.example.com".data)] = [] := by
  constructor
  · intro environment t
    rw [forbidden_environments, List.mem_filter]
    refine and_congr Iff.rfl ?_
    rw [Bool.not_eq_true']
    constructor
    · intro hfalse hp
      rw [← isPrefixOf_true_iff] at hp
      exact Bool.false_ne_true (hfalse ▸ hp)
    · intro hnp
      exact Bool.eq_false_iff.mpr fun hb => hnp ((isPrefixOf_true_iff _ _).mp hb)
  · decide

/-- Claim C3: when `environment` is absent from `provided` or empty, the
consistency check is skipped and the result's inconsistencies are empty. -/
theorem c3_skip_without_environment (defined_inputs : Definitions)
    (provided_inputs : Provided)
    (h : dictGet provided_inputs ("environment".data) = none
      ∨ dictGet provided_inputs ("environment".data) = some []) :
    (run_validation defined_inputs provided_inputs).inconsistencies = [] := by
  rcases h with h | h <;> simp [run_validation, aggregate, h]

/-- Witness for C3 at a concrete input with no `environment` key. -/
theorem c3_skip_without_environment_witness :
    (dictGet ([("version".data, "1.2.3".data)] : Provided) ("environment".data) = none
      ∨ dictGet ([("version".data, "1.2.3".data)] : Provided) ("environment".data)
          = some [])
    ∧ (run_validation [("version".data, ⟨true, false⟩)]
        [("version".data, "1.2.3".data)]).inconsistencies = [] :=
  ⟨Or.inl rfl,
    c3_skip_without_environment [("version".data, ⟨true, false⟩)]
      [("version".data, "1.2.3".data)] (Or.inl rfl)⟩

/-- Claim C6: the `ok` flag always equals the conjunction of the two
emptiness checks, for every pair of lists the aggregator receives and for
every full run. -/
theorem c6_ok_invariant :
    (∀ (missing_inputs : List Str) (inconsistent_inputs : List (Str × Str)),
      (aggregate missing_inputs inconsistent_inputs).ok =
        (missing_inputs.isEmpty && inconsistent_inputs.isEmpty))
    ∧ (∀ (defined_inputs : Definitions) (provided_inputs : Provided),
      (run_validation defined_inputs provided_inputs).ok =
        ((run_validation defined_inputs provided_inputs).missingRequired.isEmpty
          && (run_validation defined_inputs provided_inputs).inconsistencies.isEmpty)) := by
  refine ⟨aggregate_ok_eq, ?_⟩
  intro defined_inputs provided_inputs
  simp only [run_validation]
  rw [aggregate_ok_eq]
  simp [aggregate]

/-- Claim C7: the consistency validator examines all three watched fields in
one pass with no early exit, returning the per-field violations in the order
`monitor_name`, `app_url`, `k8_ingress_url`. -/
theorem c7_no_early_exit (environment : Str) (provided_inputs : Provided) :
    validate_environment_consistency environment provided_inputs =
      checkField (lowerStr environment) (forbidden_environments (lowerStr environment))
          provided_inputs ("monitor_name".data)
        ++ checkField (lowerStr environment) (forbidden_environments (lowerStr environment))
          provided_inputs ("app_url".data)
        ++ checkField (lowerStr environment) (forbidden_environments (lowerStr environment))
          provided_inputs ("k8_ingress_url".data) :=
  validate_env_eq_append environment provided_inputs

/-- Claim C8: both validators and the full run are deterministic functions of
their arguments — identical inputs give identical results. -/
theorem c8_deterministic (d₁ : Definitions) (p₁ : Provided)
    (d₂ : Definitions) (p₂ : Provided) (hd : d₁ = d₂) (hp : p₁ = p₂) :
    validate_required_inputs d₁ p₁ = validate_required_inputs d₂ p₂
    ∧ (∀ environment, validate_environment_consistency environment p₁ =
        validate_environment_consistency environment p₂)
    ∧ run_validation d₁ p₁ = run_validation d₂ p₂ := by
  subst hd; subst hp
  exact ⟨rfl, fun _ => rfl, rfl⟩

/-- Witness for C8 at a concrete pair of identical inputs. -/
theorem c8_deterministic_witness :
    validate_required_inputs [("version".data, ⟨true, false⟩)]
        [("environment".data, "prod".data)]
      = validate_required_inputs [("version".data, ⟨true, false⟩)]
        [("environment".data, "prod".data)]
    ∧ (∀ environment, validate_environment_consistency environment
        [("environment".data, "prod".data)]
      = validate_environment_consistency environment
        [("environment".data, "prod".data)])
    ∧ run_validation [("version".data, ⟨true, false⟩)]
        [("environment".data, "prod".data)]
      = run_validation [("version".data, ⟨true, false⟩)]
        [("environment".data, "prod".data)] :=
  c8_deterministic [("version".data, ⟨true, false⟩)] [("environment".data, "prod".data)]
    [("version".data, ⟨true, false⟩)] [("environment".data, "prod".data)] rfl rfl

/-- Claim C4: a present, non-empty watched field contributes at most one
forbidden-token violation, naming the first matching token of the forbidden
list — which keeps the universe's listed order — and nothing more for that
rule; the punctuation part is separate. -/
theorem c4_first_match_only (environment : Str) (provided_inputs : Provided)
    (field raw : Str) (h1 : dictGet provided_inputs field = some raw)
    (h2 : raw ≠ []) :
    checkField (lowerStr environment) (forbidden_environments (lowerStr environment))
        provided_inputs field =
      tokenViolationSpec (lowerStr environment)
          (forbidden_environments (lowerStr environment)) field (lowerStr raw)
        ++ punctViolationSpec field (lowerStr raw)
    ∧ (tokenViolationSpec (lowerStr environment)
        (forbidden_environments (lowerStr environment)) field (lowerStr raw)).length ≤ 1
    ∧ List.Sublist (forbidden_environments (lowerStr environment)) all_environments := by
  refine ⟨?_, ?_, List.filter_sublist _⟩
  · unfold checkField tokenViolationSpec punctViolationSpec
    rw [h1]
    simp only [List.isEmpty_eq_true, if_neg h2, firstForbidden_eq_find]
  · unfold tokenViolationSpec
    cases h : (forbidden_environments (lowerStr environment)).find?
        (fun fe => containsSubstr fe (lowerStr raw)) <;> simp

/-- Witness for C4 at `environment = "prod"`, `app_url = "stage 1"`. -/
theorem c4_first_match_only_witness :
    dictGet [("app_url".data, "stage 1".data)] ("app_url".data) = some ("stage 1".data)
    ∧ ("stage 1".data ≠ ([] : Str))
    ∧ (checkField (lowerStr "prod".data) (forbidden_environments (lowerStr "prod".data))
          [("app_url".data, "stage 1".data)] ("app_url".data) =
        tokenViolationSpec (lowerStr "prod".data)
            (forbidden_environments (lowerStr "prod".data)) ("app_url".data)
            (lowerStr "stage 1".data)
          ++ punctViolationSpec ("app_url".data) (lowerStr "stage 1".data)
      ∧ (tokenViolationSpec (lowerStr "prod".data)
          (forbidden_environments (lowerStr "prod".data)) ("app_url".data)
          (lowerStr "stage 1".data)).length ≤ 1
      ∧ List.Sublist (forbidden_environments (lowerStr "prod".data)) all_environments) :=
  ⟨rfl, by decide,
    c4_first_match_only "prod".data [("app_url".data, "stage 1".data)]
      ("app_url".data) ("stage 1".data) rfl (by decide)⟩

/-- Claim C5: a dash or underscore in a present, non-empty `monitor_name`
records the punctuation violation regardless of the forbidden-token rule,
and in Scenario 2 exactly two violations result, the forbidden-token one
first. -/
theorem c5_monitor_name_punctuation (environment : Str)
    (provided_inputs : Provided) (v : Str)
    (h1 : dictGet provided_inputs ("monitor_name".data) = some v) (h2 : v ≠ [])
    (h3 : Char.ofNat 45 ∈ v ∨ Char.ofNat 95 ∈ v) :
    ("monitor_name".data, punctDetail) ∈
        validate_environment_consistency environment provided_inputs
    ∧ validate_environment_consistency "prod".data
        [("monitor_name".data, "staging-monitor".data)] =
      [("monitor_name".data, forbiddenDetail "staging".data "prod".data
          (forbidden_environments "prod".data)),
       ("monitor_name".data, punctDetail)] := by
  constructor
  · have hc : ((lowerStr v).contains (Char.ofNat 45)
        || (lowerStr v).contains (Char.ofNat 95)) = true := by
      rw [Bool.or_eq_true]
      rcases h3 with h | h
      · exact Or.inl (List.contains_iff_exists_mem_beq.mpr
          ⟨Char.ofNat 45, List.mem_map.mpr ⟨Char.ofNat 45, h, by decide⟩, by decide⟩)
      · exact Or.inr (List.contains_iff_exists_mem_beq.mpr
          ⟨Char.ofNat 95, List.mem_map.mpr ⟨Char.ofNat 95, h, by decide⟩, by decide⟩)
    exact mem_validate_of_mem_checkField (by decide)
      (mem_checkField_punct (lowerStr environment)
        (forbidden_environments (lowerStr environment)) provided_inputs h1 h2 hc)
  · decide

/-- Witness for C5 at Scenario 2's concrete input. -/
theorem c5_monitor_name_punctuation_witness :
    (Char.ofNat 45 ∈ "staging-monitor".data ∨ Char.ofNat 95 ∈ "staging-monitor".data)
    ∧ (("monitor_name".data, punctDetail) ∈
        validate_environment_consistency "prod".data
          [("monitor_name".data, "staging-monitor".data)]
      ∧ validate_environment_consistency "prod".data
          [("monitor_name".data, "staging-monitor".data)] =
        [("monitor_name".data, forbiddenDetail "staging".data "prod".data
            (forbidden_environments "prod".data)),
         ("monitor_name".data, punctDetail)]) :=
  ⟨by decide,
    c5_monitor_name_punctuation "prod".data
      [("monitor_name".data, "staging-monitor".data)] ("staging-monitor".data)
      rfl (by decide) (by decide)⟩

/-- Counterexample to Claim C9 as stated: with environment `staging`, a
`monitor_name` containing the environment's own full name `staging` yields no
violation at all, although `stage` is in the forbidden set — `stage` is not a
substring of `staging`. -/
theorem c9_staging_counterexample :
    containsSubstr "staging".data (lowerStr "staging monitor".data) = true
    ∧ "stage".data ∈ forbidden_environments (lowerStr "staging".data)
    ∧ validate_environment_consistency "staging".data
        [("monitor_name".data, "staging monitor".data)] = [] := by decide

/-- Claim C9 amended: for the long-form environments the short alias is
forbidden; a field containing the full name is recorded as a violation for
`production` and `development` (whose alias is a prefix of the full name),
but not for `staging`, since `stage` is not a substring of `staging`. -/
theorem c9_alias_family (provided₁ provided₂ : Provided) (v₁ v₂ : Str)
    (h1 : dictGet provided₁ ("monitor_name".data) = some v₁) (h2 : v₁ ≠ [])
    (h3 : containsSubstr "production".data (lowerStr v₁) = true)
    (h4 : dictGet provided₂ ("monitor_name".data) = some v₂) (h5 : v₂ ≠ [])
    (h6 : containsSubstr "development".data (lowerStr v₂) = true) :
    ("prod".data ∈ forbidden_environments (lowerStr "production".data)
      ∧ "stage".data ∈ forbidden_environments (lowerStr "staging".data)
      ∧ "dev".data ∈ forbidden_environments (lowerStr "development".data))
    ∧ ("monitor_name".data, forbiddenDetail "prod".data (lowerStr "production".data)
        (forbidden_environments (lowerStr "production".data))) ∈
        validate_environment_consistency "production".data provided₁
    ∧ (∃ r, ("monitor_name".data, r) ∈
        validate_environment_consistency "development".data provided₂)
    ∧ validate_environment_consistency "staging".data
        [("monitor_name".data, "the staging report".data)] = [] := by
  refine ⟨by decide, ?_, ?_, by decide⟩
  · have hfind : firstForbidden (forbidden_environments (lowerStr "production".data))
        (lowerStr v₁) = some ("prod".data) := by
      rw [firstForbidden_eq_find]
      have hfb : forbidden_environments (lowerStr "production".data) =
          ["prod".data, "staging".data, "stage".data, "dev".data,
           "development".data] := by decide
      rw [hfb]
      exact List.find?_cons_of_pos _ (containsSubstr_of_prefixed (by decide) h3)
    exact mem_validate_of_mem_checkField (by decide)
      (mem_checkField_token (lowerStr "production".data)
        (forbidden_environments (lowerStr "production".data)) provided₁ h1 h2 hfind)
  · have hd : containsSubstr "dev".data (lowerStr v₂) = true :=
      containsSubstr_of_prefixed (by decide) h6
    have hsome : ((forbidden_environments (lowerStr "development".data)).find?
        (fun fe => containsSubstr fe (lowerStr v₂))).isSome := by
      rw [List.find?_isSome]
      exact ⟨"dev".data, by decide, hd⟩
    obtain ⟨fe, hfe⟩ := Option.isSome_iff_exists.mp hsome
    exact ⟨forbiddenDetail fe (lowerStr "development".data)
        (forbidden_environments (lowerStr "development".data)),
      mem_validate_of_mem_checkField (by decide)
        (mem_checkField_token (lowerStr "development".data)
          (forbidden_environments (lowerStr "development".data)) provided₂ h4 h5
          (by rw [firstForbidden_eq_find, hfe]))⟩

/-- Witness for the amended C9 at concrete `monitor_name` values containing
the full environment names. -/
theorem c9_alias_family_witness :
    containsSubstr "production".data (lowerStr "production app".data) = true
    ∧ containsSubstr "development".data (lowerStr "development app".data) = true
    ∧ (("prod".data ∈ forbidden_environments (lowerStr "production".data)
        ∧ "stage".data ∈ forbidden_environments (lowerStr "staging".data)
        ∧ "dev".data ∈ forbidden_environments (lowerStr "development".data))
      ∧ ("monitor_name".data, forbiddenDetail "prod".data (lowerStr "production".data)
          (forbidden_environments (lowerStr "production".data))) ∈
          validate_environment_consistency "production".data
            [("monitor_name".data, "production app".data)]
      ∧ (∃ r, ("monitor_name".data, r) ∈
          validate_environment_consistency "development".data
            [("monitor_name".data, "development app".data)])
      ∧ validate_environment_consistency "staging".data
          [("monitor_name".data, "the staging report".data)] = []) :=
  ⟨by decide, by decide,
    c9_alias_family [("monitor_name".data, "production app".data)]
      [("monitor_name".data, "development app".data)]
      ("production app".data) ("development app".data)
      rfl (by decide) (by decide) rfl (by decide) (by decide)⟩

/-- Claim C10: an environment matching no universe token as a prefix (such
as `qa`) forbids the whole universe, so any present, non-empty watched field
containing a known token is flagged; the environment value itself is never
checked against the universe. -/
theorem c10_unknown_environment (environment : Str) (provided_inputs : Provided)
    (field v : Str)
    (hAll : ∀ t ∈ all_environments, (lowerStr environment).isPrefixOf t = false)
    (hf : field ∈ fields_to_check)
    (h1 : dictGet provided_inputs field = some v) (h2 : v ≠ [])
    (ht : ∃ t ∈ all_environments, containsSubstr t (lowerStr v) = true) :
    forbidden_environments (lowerStr environment) = all_environments
    ∧ (∃ r, (field, r) ∈ validate_environment_consistency environment provided_inputs)
    ∧ forbidden_environments (lowerStr "qa".data) = all_environments
    ∧ validate_environment_consistency "qa".data
        [("monitor_name".data, "qa monitor".data)] = [] := by
  have hfb : forbidden_environments (lowerStr environment) = all_environments := by
    rw [forbidden_environments, List.filter_eq_self]
    intro a ha
    simp [hAll a ha]
  refine ⟨hfb, ?_, by decide, by decide⟩
  obtain ⟨t, htmem, htc⟩ := ht
  have hsome : ((forbidden_environments (lowerStr environment)).find?
      (fun fe => containsSubstr fe (lowerStr v))).isSome := by
    rw [List.find?_isSome]
    exact ⟨t, by rw [hfb]; exact htmem, htc⟩
  obtain ⟨fe, hfe⟩ := Option.isSome_iff_exists.mp hsome
  exact ⟨forbiddenDetail fe (lowerStr environment)
      (forbidden_environments (lowerStr environment)),
    mem_validate_of_mem_checkField hf
      (mem_checkField_token (lowerStr environment)
        (forbidden_environments (lowerStr environment)) provided_inputs h1 h2
        (by rw [firstForbidden_eq_find, hfe]))⟩

/-- Witness for C10 at `environment = "qa"` with a `monitor_name` containing
`prod`. -/
theorem c10_unknown_environment_witness :
    (∀ t ∈ all_environments, (lowerStr "qa".data).isPrefixOf t = false)
    ∧ (forbidden_environments (lowerStr "qa".data) = all_environments
      ∧ (∃ r, ("monitor_name".data, r) ∈ validate_environment_consistency "qa".data
          [("monitor_name".data, "my prod app".data)])
      ∧ forbidden_environments (lowerStr "qa".data) = all_environments
      ∧ validate_environment_consistency "qa".data
          [("monitor_name".data, "qa monitor".data)] = []) :=
  ⟨by decide,
    c10_unknown_environment "qa".data [("monitor_name".data, "my prod app".data)]
      ("monitor_name".data) ("my prod app".data) (by decide) (by decide) rfl
      (by decide) ⟨"prod".data, by decide, by decide⟩⟩

end ValidateWorkflowInputs
